import Mathlib

/-
  Shallow embedding of the comput3ai Eliza plugin core:
  - the validation utilities (pattern library, the three field extractors,
    the text-level validators) from src/utils/validation.ts,
  - the intent validators and the launch / stop / list action handlers
    from src/actions/launchWorkload.ts and src/actions/listWorkloads.ts,
  - the API-key resolution of src/utils/apiClient.ts.

  JavaScript regular expressions are embedded by dedicated matchers that
  reproduce the leftmost-match, greedy semantics of each concrete pattern
  used in the source.  Handlers are embedded as pure functions from an
  environment (settings, message content, model-collaborator output, the
  clock, HTTP-collaborator outcome) to a result flag plus a trace of
  observable events (model calls, deterministic extraction, HTTP requests,
  callback invocations).
-/

/-! ### Character classes and case-insensitive matching (JS regex semantics) -/

def asciiToLower (c : Char) : Char :=
  if 'A' ≤ c && c ≤ 'Z' then Char.ofNat (c.toNat + 32) else c

/-- Case-insensitive character comparison, as the i flag of a JS regex
    canonicalises ASCII letters. -/
def charIC (a b : Char) : Bool :=
  asciiToLower a == asciiToLower b

def isDigitC (c : Char) : Bool := '0' ≤ c && c ≤ '9'

def isAlphaC (c : Char) : Bool :=
  ('a' ≤ c && c ≤ 'z') || ('A' ≤ c && c ≤ 'Z')

def isAlnumC (c : Char) : Bool := isAlphaC c || isDigitC c

/-- The class [0-9a-f] under the i flag. -/
def isHexC (c : Char) : Bool :=
  isDigitC c || ('a' ≤ asciiToLower c && asciiToLower c ≤ 'f')

/-- The class [a-zA-Z0-9-_] of the workload-keyword pattern. -/
def isIdC (c : Char) : Bool := isAlnumC c || c == '-' || c == '_'

/-- The class [a-zA-Z0-9-] of the domain pattern. -/
def isDomC (c : Char) : Bool := isAlnumC c || c == '-'

/-- Line terminators, which the JS dot does not match. -/
def isNlC (c : Char) : Bool :=
  c == '\n' || c == '\r' || c.toNat == 0x2028 || c.toNat == 0x2029

/-- The JS whitespace class backslash-s. -/
def isWsC (c : Char) : Bool :=
  let n := c.toNat
  n == 32 || n == 9 || n == 10 || n == 11 || n == 12 || n == 13 ||
  n == 160 || n == 5760 || (8192 ≤ n && n ≤ 8202) || n == 8232 ||
  n == 8233 || n == 8239 || n == 8287 || n == 12288 || n == 65279

/-- The class [:\s] separating the workload keyword from the id. -/
def isWsColonC (c : Char) : Bool := isWsC c || c == ':'

/-- Case-insensitive startsWith on character lists. -/
def swIC : List Char → List Char → Bool
  | [], _ => true
  | _ :: _, [] => false
  | p :: ps, c :: cs => charIC p c && swIC ps cs

/-- Case-insensitive substring test: a literal JS regex with the i flag. -/
def containsIC (pat : List Char) : List Char → Bool
  | [] => swIC pat []
  | c :: cs => swIC pat (c :: cs) || containsIC pat cs

/-- Case-sensitive startsWith on character lists. -/
def swEq : List Char → List Char → Bool
  | [], _ => true
  | _ :: _, [] => false
  | p :: ps, c :: cs => p == c && swEq ps cs

/-- Case-sensitive substring test (the includes method of JS strings). -/
def containsEq (pat : List Char) : List Char → Bool
  | [] => swEq pat []
  | c :: cs => swEq pat (c :: cs) || containsEq pat cs

/-- Test of a JS regex of shape first-literal dot-star second-literal with
    the i flag: the first literal matches somewhere and the second literal
    occurs after it, with no line terminator in between. -/
def seqTest (a b : List Char) : List Char → Bool
  | [] => false
  | c :: cs =>
    (swIC a (c :: cs) &&
      containsIC b (((c :: cs).drop a.length).takeWhile (fun ch => !isNlC ch))) ||
    seqTest a b cs

/-- Leftmost-position scan: apply an anchored matcher at every start
    position, in order, returning its first success.  This is how a JS
    regex engine locates a match. -/
def scanFor {α : Type} (m : List Char → Option α) : List Char → Option α
  | [] => m []
  | c :: cs =>
    match m (c :: cs) with
    | some r => some r
    | none => scanFor m cs

/-- Consume exactly n characters satisfying p, returning them and the
    remainder (a fixed-arity regex piece such as hex with a count). -/
def consumeCount (p : Char → Bool) : Nat → List Char → Option (List Char × List Char)
  | 0, xs => some ([], xs)
  | _ + 1, [] => none
  | n + 1, c :: cs =>
    if p c then (consumeCount p n cs).map (fun pr => (c :: pr.1, pr.2)) else none

/-- Consume a sequence of fixed-arity segments. -/
def consumeSegs : List ((Char → Bool) × Nat) → List Char → Option (List Char × List Char)
  | [], xs => some ([], xs)
  | s :: ss, xs =>
    (consumeCount s.1 s.2 xs).bind fun a =>
      (consumeSegs ss a.2).map fun b => (a.1 ++ b.1, b.2)

/-! ### The five anchored matchers of extractWorkloadId -/

/-- Segment shape of the UUID pattern: hex 8-4-4-4-12 joined by dashes. -/
def uuidSegs : List ((Char → Bool) × Nat) :=
  [(isHexC, 8), (fun c => c == '-', 1), (isHexC, 4), (fun c => c == '-', 1),
   (isHexC, 4), (fun c => c == '-', 1), (isHexC, 4), (fun c => c == '-', 1),
   (isHexC, 12)]

/-- Anchored UUID matcher, returning the matched characters and the rest. -/
def uuidAt (xs : List Char) : Option (List Char × List Char) :=
  consumeSegs uuidSegs xs

/-- Backtracking for the greedy token of the domain pattern: shrink the
    [a-zA-Z0-9-]+ run (held reversed) until the fixed suffix follows. -/
def domTryRev : List Char → List Char → Option (List Char)
  | [], _ => none
  | c :: revRun, rest =>
    if swIC (".comput3.ai".data) rest then
      some ((c :: revRun).reverse ++ rest.take 11)
    else domTryRev revRun (c :: rest)

/-- Anchored matcher for the domain pattern. -/
def domainAt (xs : List Char) : Option (List Char) :=
  let run := xs.takeWhile isDomC
  domTryRev run.reverse (xs.drop run.length)

/-- Anchored matcher for the wrk underscore pattern; the source re-attaches
    the wrk underscore prefix to the captured alphanumeric run. -/
def wrkAt (xs : List Char) : Option (List Char) :=
  if swIC ("wrk_".data) xs then
    let run := (xs.drop 4).takeWhile isAlnumC
    if run.isEmpty then none else some ("wrk_".data ++ run)
  else none

/-- Anchored matcher for the workload-keyword pattern; the capture is the
    id token after the separator. -/
def workloadAt (xs : List Char) : Option (List Char) :=
  if swIC ("workload".data) xs then
    let rest := xs.drop 8
    let sep := rest.takeWhile isWsColonC
    if sep.isEmpty then none
    else
      let run := (rest.drop sep.length).takeWhile isIdC
      if run.isEmpty then none else some run
  else none

def alphaRun (xs : List Char) : List Char × List Char :=
  let r := xs.takeWhile isAlphaC
  (r, xs.drop r.length)

/-- Anchored matcher for the four-alphabetic-words-joined-by-hyphens
    pattern. -/
def fourAlphaAt (xs : List Char) : Option (List Char) :=
  let p1 := alphaRun xs
  if p1.1.isEmpty then none
  else
    match p1.2 with
    | '-' :: xs2 =>
      let p2 := alphaRun xs2
      if p2.1.isEmpty then none
      else
        match p2.2 with
        | '-' :: xs4 =>
          let p3 := alphaRun xs4
          if p3.1.isEmpty then none
          else
            match p3.2 with
            | '-' :: xs6 =>
              let p4 := alphaRun xs6
              if p4.1.isEmpty then none
              else some (p1.1 ++ '-' :: p2.1 ++ '-' :: p3.1 ++ '-' :: p4.1)
            | _ => none
        | _ => none
    | _ => none

/-- extractWorkloadId from src/utils/validation.ts: UUID first, then the
    comput3 domain, then the wrk prefix, the workload keyword, and the
    loose four-word fallback, each scanned leftmost; none when nothing
    matches (and on the empty string, the falsy-text guard). -/
def extractWorkloadId (text : String) : Option String :=
  if text = "" then none
  else
    match scanFor (fun xs => (uuidAt xs).map Prod.fst) text.data with
    | some m => some (String.mk m)
    | none =>
      match scanFor domainAt text.data with
      | some m => some (String.mk m)
      | none =>
        match scanFor wrkAt text.data with
        | some m => some (String.mk m)
        | none =>
          match scanFor workloadAt text.data with
          | some m => some (String.mk m)
          | none =>
            match scanFor fourAlphaAt text.data with
            | some m => some (String.mk m)
            | none => none

/-! ### The duration matchers of extractExpirationTime -/

def parseDigits (ds : List Char) : Nat :=
  ds.foldl (fun acc c => 10 * acc + (c.toNat - 48)) 0

def litICDrop (lit : List Char) (xs : List Char) : Option (List Char) :=
  if swIC lit xs then some (xs.drop lit.length) else none

def optICDrop (lit : List Char) (xs : List Char) : List Char :=
  if swIC lit xs then xs.drop lit.length else xs

/-- Shared tail of the minute patterns: digits, optional whitespace, the
    literal min (the optional ute and s that follow bind nothing). -/
def digitsWsMin (xs : List Char) : Option Nat :=
  let ds := xs.takeWhile isDigitC
  if ds.isEmpty then none
  else
    let rest := (xs.drop ds.length).dropWhile isWsC
    if swIC ("min".data) rest then some (parseDigits ds) else none

/-- Anchored matcher for: expire, optional s, the literal in, digits,
    whitespace, min. -/
def expiresInAt (xs : List Char) : Option Nat :=
  (litICDrop ("expire".data) xs).bind fun xs1 =>
    (litICDrop (" in ".data) (optICDrop ("s".data) xs1)).bind digitsWsMin

/-- Anchored matcher for: the literal for, digits, whitespace, min. -/
def forMinAt (xs : List Char) : Option Nat :=
  (litICDrop ("for ".data) xs).bind digitsWsMin

/-- Anchored matcher for: digits, whitespace, min, optional ute, optional
    s, then the literal expir with its leading space. -/
def minExpirAt (xs : List Char) : Option Nat :=
  let ds := xs.takeWhile isDigitC
  if ds.isEmpty then none
  else
    let rest := (xs.drop ds.length).dropWhile isWsC
    (litICDrop ("min".data) rest).bind fun r1 =>
      if swIC (" expir".data) (optICDrop ("s".data) (optICDrop ("ute".data) r1)) then
        some (parseDigits ds)
      else none

/-- Anchored matcher for: digits, whitespace, hour. -/
def hoursAt (xs : List Char) : Option Nat :=
  let ds := xs.takeWhile isDigitC
  if ds.isEmpty then none
  else
    let rest := (xs.drop ds.length).dropWhile isWsC
    if swIC ("hour".data) rest then some (parseDigits ds) else none

/-- extractExpirationTime from src/utils/validation.ts: the five duration
    patterns in declared order, hours multiplied by 60, the default when
    none matches (and on the empty string, the falsy-text guard). -/
def extractExpirationTime (text : String) (defaultMinutes : Nat) : Nat :=
  if text = "" then defaultMinutes
  else
    match scanFor expiresInAt text.data with
    | some v => v
    | none =>
      match scanFor forMinAt text.data with
      | some v => v
      | none =>
        match scanFor minExpirAt text.data with
        | some v => v
        | none =>
          match scanFor digitsWsMin text.data with
          | some v => v
          | none =>
            match scanFor hoursAt text.data with
            | some v => v * 60
            | none => defaultMinutes

/-! ### The workload-type pattern library and extractWorkloadType -/

/-- A type pattern is either a case-insensitive literal or a pair of
    literals joined by dot-star. -/
inductive TPat where
  | lit (s : String)
  | seq (a b : String)

def testTPat (xs : List Char) : TPat → Bool
  | .lit s => containsIC s.data xs
  | .seq a b => seqTest a.data b.data xs

/-- WORKLOAD_TYPE_PATTERNS from src/utils/validation.ts, in declared
    order. -/
def WORKLOAD_TYPE_PATTERNS : List (String × List TPat) :=
  [(("media:fast"),
    [.lit ("media:fast"), .lit ("media fast"), .lit ("fast media"),
     .seq ("media") ("fast")]),
   (("ollama_webui:coder"),
    [.lit ("ollama_webui:coder"), .lit ("ollama webui:coder"),
     .lit ("ollama webui coder"), .seq ("ollama") ("coder"),
     .lit ("coder workload"), .lit ("coding workload"),
     .seq ("workload") ("coding"), .seq ("workload") ("code")]),
   (("ollama_webui:fast"),
    [.lit ("ollama_webui:fast"), .lit ("ollama webui:fast"),
     .lit ("ollama webui fast"), .seq ("ollama") ("fast"),
     .lit ("ollama fast"), .lit ("fast ollama")]),
   (("ollama_webui:large"),
    [.lit ("ollama_webui:large"), .lit ("ollama webui:large"),
     .lit ("ollama webui large"), .seq ("ollama") ("large"),
     .lit ("large ollama"), .lit ("ollama large")]),
   (("llama_webui:coder"),
    [.lit ("llama_webui:coder"), .lit ("llama webui:coder"),
     .lit ("llama webui coder"), .seq ("llama") ("coder"),
     .lit ("llama coder")])]

def coderKws : List String := [("coder"), ("coding"), ("code"), ("developer"), ("development")]
def mediaKws : List String := [("media"), ("video"), ("audio"), ("streaming")]
def largeKws : List String := [("large"), ("big"), ("powerful")]
def fastKws : List String := [("fast"), ("quick"), ("speed")]

def kwAny (kws : List String) (xs : List Char) : Bool :=
  kws.any (fun k => containsIC k.data xs)

/-- The context-based inference fallback of extractWorkloadType, in its
    fixed priority order. -/
def heuristicType (xs : List Char) : Option String :=
  if kwAny coderKws xs then some ("ollama_webui:coder")
  else if kwAny mediaKws xs then some ("media:fast")
  else if kwAny largeKws xs then some ("ollama_webui:large")
  else if kwAny fastKws xs then some ("ollama_webui:fast")
  else none

/-- The direct-match loop of extractWorkloadType: first declared type one
    of whose patterns matches. -/
def findTypeLoop : List (String × List TPat) → List Char → Option String
  | [], _ => none
  | tp :: rest, xs =>
    if tp.2.any (testTPat xs) then some tp.1 else findTypeLoop rest xs

/-- extractWorkloadType from src/utils/validation.ts. -/
def extractWorkloadType (text : String) : Option String :=
  if text = "" then none
  else
    match findTypeLoop WORKLOAD_TYPE_PATTERNS text.data with
    | some ty => some ty
    | none => heuristicType text.data

/-! ### Text-level candidate builders -/

structure LaunchTextParams where
  type : String
  expires : Nat
deriving DecidableEq

/-- validateLaunchWorkloadFromText: type extraction must succeed, the
    expiration extraction runs with its default of 10. -/
def validateLaunchWorkloadFromText (text : String) : Option LaunchTextParams :=
  match extractWorkloadType text with
  | none => none
  | some ty => some { type := ty, expires := extractExpirationTime text 10 }

/-- validateStopWorkloadFromText: the workload field of the returned
    object is the extracted id. -/
def validateStopWorkloadFromText (text : String) : Option String :=
  extractWorkloadId text

/-! ### JS values and the intent validators -/

inductive JsVal where
  | undef
  | nullv
  | boolv (b : Bool)
  | numv (n : Int)
  | strv (s : String)
deriving DecidableEq

def jsTruthy : JsVal → Bool
  | .undef => false
  | .nullv => false
  | .boolv b => b
  | .numv n => n != 0
  | .strv s => s != ""

def jsTypeof : JsVal → String
  | .undef => ("undefined")
  | .nullv => ("object")
  | .boolv _ => ("boolean")
  | .numv _ => ("number")
  | .strv _ => ("string")

def jsStr : JsVal → String
  | .strv s => s
  | _ => ("")

def jsNumOr (d : Int) : JsVal → Int
  | .numv n => n
  | _ => d

structure LaunchContent where
  type : JsVal
  expires : JsVal
deriving DecidableEq

/-- isLaunchWorkloadContent from src/actions/launchWorkload.ts: type
    truthy and of string type; expires undefined or of number type. -/
def isLaunchWorkloadContent (c : LaunchContent) : Bool :=
  if !jsTruthy c.type || !(jsTypeof c.type == ("string")) then false
  else if !(c.expires == JsVal.undef) && !(jsTypeof c.expires == ("number")) then false
  else true

structure StopContent where
  workload : JsVal
deriving DecidableEq

/-- isStopWorkloadContent: workload truthy and of string type. -/
def isStopWorkloadContent (c : StopContent) : Bool :=
  if !jsTruthy c.workload || !(jsTypeof c.workload == ("string")) then false
  else true

/-! ### Requests, events and API-key resolution -/

structure LaunchWorkloadRequest where
  type : String
  expires : Int
deriving DecidableEq

structure ListWorkloadsRequest where
  running : Option Bool
deriving DecidableEq

/-- Observable events of one handler turn. -/
inductive Event where
  | modelExtract
  | directExtract
  | httpLaunch (req : LaunchWorkloadRequest)
  | httpStop (workload : String)
  | httpList (req : ListWorkloadsRequest)
  | cb (success : Option Bool)
deriving DecidableEq

/-- Key resolution of the validate functions and of fromRuntime: the
    runtime setting, else the process environment, else empty (JS falsy
    chaining). -/
def resolveApiKey (settingKey envKey : Option String) : String :=
  match settingKey with
  | some v => if v == ("") then envKey.getD ("") else v
  | none => envKey.getD ("")

/-- The common validate function of the actions: false exactly when the
    resolved API key is empty. -/
def actionValidate (settingKey envKey : Option String) : Bool :=
  resolveApiKey settingKey envKey != ("")

/-! ### Launch handler -/

structure LaunchMsgContent where
  typeField : Option JsVal
  expires : JsVal
  text : JsVal

structure LaunchEnv where
  settingKey : Option String
  envKey : Option String
  content : Option LaunchMsgContent
  modelThrows : Bool
  modelOutput : LaunchContent
  nowMs : Nat
  apiOk : Bool
  apiData : Bool

/-- The extraction phase of the launch handler: structured content if the
    type field is present, else the model collaborator, with deterministic
    text extraction as recovery when the model output fails validation.
    Returns none when the model collaborator (or the validation of a null
    parse) throws, which the outer catch of the handler absorbs. -/
def launchExtract (env : LaunchEnv) : Option LaunchContent × List Event :=
  match env.content with
  | some c =>
    match c.typeField with
    | some tv => (some { type := tv, expires := c.expires }, [])
    | none =>
      if env.modelThrows then (none, [Event.modelExtract])
      else if isLaunchWorkloadContent env.modelOutput then
        (some env.modelOutput, [Event.modelExtract])
      else
        match c.text with
        | JsVal.strv s =>
          match validateLaunchWorkloadFromText s with
          | some p =>
            (some { type := JsVal.strv p.type, expires := JsVal.numv p.expires },
             [Event.modelExtract, Event.directExtract])
          | none => (some env.modelOutput, [Event.modelExtract, Event.directExtract])
        | _ => (some env.modelOutput, [Event.modelExtract])
  | none =>
    if env.modelThrows then (none, [Event.modelExtract])
    else (some env.modelOutput, [Event.modelExtract])

/-- The expiration minutes used by the launch handler after validation:
    the default 10 when the field is undefined, else its numeric value. -/
def launchMinutes (p : LaunchContent) : Int :=
  match p.expires with
  | JsVal.undef => 10
  | e => jsNumOr 0 e

/-- Validation, request construction (the only place where minutes become
    a Unix timestamp) and the HTTP call plus callback of the launch
    handler. -/
def launchFinish (env : LaunchEnv) (p : LaunchContent) (evs : List Event) :
    Bool × List Event :=
  if !isLaunchWorkloadContent p then (false, evs ++ [Event.cb (some false)])
  else
    let req : LaunchWorkloadRequest :=
      { type := jsStr p.type,
        expires := Int.ofNat (env.nowMs / 1000) + launchMinutes p * 60 }
    if !env.apiOk || !env.apiData then
      (false, evs ++ [Event.httpLaunch req, Event.cb (some false)])
    else (true, evs ++ [Event.httpLaunch req, Event.cb (some true)])

/-- launchWorkloadAction.handler: client creation (throwing into the catch
    when the key is missing), extraction, validation, request, callback. -/
def launchHandler (env : LaunchEnv) : Bool × List Event :=
  if !actionValidate env.settingKey env.envKey then (false, [Event.cb (some false)])
  else
    match launchExtract env with
    | (none, evs) => (false, evs ++ [Event.cb (some false)])
    | (some p, evs) => launchFinish env p evs

/-! ### Stop handler -/

structure StopMsgContent where
  workloadField : Option JsVal
  text : Option String

structure StopEnv where
  settingKey : Option String
  envKey : Option String
  content : Option StopMsgContent
  modelThrows : Bool
  modelOutput : StopContent
  apiOk : Bool
  apiData : Bool

/-- Validation, the preliminary processing callback (which carries no
    success field), the HTTP call and the final callback of the stop
    handler. -/
def stopFinish (env : StopEnv) (p : StopContent) (evs : List Event) :
    Bool × List Event :=
  if !isStopWorkloadContent p then (false, evs ++ [Event.cb (some false)])
  else
    let w := jsStr p.workload
    if !env.apiOk || !env.apiData then
      (false, evs ++ [Event.cb none, Event.httpStop w, Event.cb (some false)])
    else (true, evs ++ [Event.cb none, Event.httpStop w, Event.cb (some true)])

/-- The text branch of the stop handler: deterministic extraction first,
    the model collaborator only when it fails, with the in-branch
    validation of the model output. -/
def stopFromText (env : StopEnv) (s : String) : Bool × List Event :=
  match validateStopWorkloadFromText s with
  | some w => stopFinish env { workload := JsVal.strv w } [Event.directExtract]
  | none =>
    if env.modelThrows then
      (false, [Event.directExtract, Event.modelExtract, Event.cb (some false)])
    else if !isStopWorkloadContent env.modelOutput then
      (false, [Event.directExtract, Event.modelExtract, Event.cb (some false)])
    else stopFinish env env.modelOutput [Event.directExtract, Event.modelExtract]

/-- stopWorkloadAction.handler: structured workload string if present,
    else deterministic text extraction first, else the model collaborator,
    validated in place; no valid content fails directly. -/
def stopHandler (env : StopEnv) : Bool × List Event :=
  if !actionValidate env.settingKey env.envKey then (false, [Event.cb (some false)])
  else
    match env.content with
    | some c =>
      match c.workloadField with
      | some (JsVal.strv w) => stopFinish env { workload := JsVal.strv w } []
      | _ =>
        match c.text with
        | some s => stopFromText env s
        | none => (false, [Event.cb (some false)])
    | none => (false, [Event.cb (some false)])

/-! ### List handler -/

structure ListEnv where
  settingKey : Option String
  envKey : Option String
  text : String
  apiOk : Bool
  apiData : Bool

/-- The lowercased message text contains the word running (toLowerCase
    then includes, as in the source). -/
def hasRunningKw (t : String) : Bool :=
  containsEq ("running".data) (t.data.map asciiToLower)

/-- Comput3ApiClient.listWorkloads: the default body with running true is
    substituted only when the request argument is absent. -/
def listWorkloadsClient (req : Option ListWorkloadsRequest) : ListWorkloadsRequest :=
  match req with
  | some r => r
  | none => { running := some true }

/-- listWorkloadsAction.handler: running is true when the lowercased text
    contains running, undefined otherwise (JS or with undefined). -/
def listHandler (env : ListEnv) : Bool × List Event :=
  if !actionValidate env.settingKey env.envKey then (false, [Event.cb (some false)])
  else
    let req : ListWorkloadsRequest :=
      { running := if hasRunningKw env.text then some true else none }
    let body := listWorkloadsClient (some req)
    if !env.apiOk || !env.apiData then
      (false, [Event.httpList body, Event.cb (some false)])
    else (true, [Event.httpList body, Event.cb (some true)])

/-! ### Trace observations -/

/-- The sequence of callback payload success fields of a trace. -/
def cbSeq (tr : List Event) : List (Option Bool) :=
  tr.filterMap (fun e => match e with | Event.cb s => some s | _ => none)

def isExtractEv : Event → Bool
  | Event.modelExtract => true
  | Event.directExtract => true
  | _ => false

def isHttpStopEv : Event → Bool
  | Event.httpStop _ => true
  | _ => false

/-- The stop message carries no pre-structured workload string. -/
def stopUnstructured (env : StopEnv) : Bool :=
  match env.content with
  | some c =>
    match c.workloadField with
    | some (JsVal.strv _) => false
    | _ => true
  | none => true

/-- The launch message carries no pre-structured type field. -/
def launchUnstructured (env : LaunchEnv) : Bool :=
  match env.content with
  | some c => c.typeField.isNone
  | none => true

/-! ### Theorems -/

/-- Claim C3: extractWorkloadId tries, in this order, the UUID pattern,
    the comput3 domain pattern, the wrk-prefixed pattern (re-prefixed),
    the workload-keyword pattern and the four-alphabetic-words pattern,
    returns the first match, and none when nothing matches; the UUID and
    domain examples are returned verbatim and a text with no id yields
    none. -/
theorem extractWorkloadId_priority_chain :
    (∀ (t : String) (m : List Char),
        scanFor (fun xs => (uuidAt xs).map Prod.fst) t.data = some m →
        extractWorkloadId t = some (String.mk m)) ∧
    (∀ (t : String) (m : List Char),
        scanFor (fun xs => (uuidAt xs).map Prod.fst) t.data = none →
        scanFor domainAt t.data = some m →
        extractWorkloadId t = some (String.mk m)) ∧
    (∀ (t : String) (m : List Char),
        scanFor (fun xs => (uuidAt xs).map Prod.fst) t.data = none →
        scanFor domainAt t.data = none →
        scanFor wrkAt t.data = some m →
        extractWorkloadId t = some (String.mk m)) ∧
    (∀ (t : String) (m : List Char),
        scanFor (fun xs => (uuidAt xs).map Prod.fst) t.data = none →
        scanFor domainAt t.data = none →
        scanFor wrkAt t.data = none →
        scanFor workloadAt t.data = some m →
        extractWorkloadId t = some (String.mk m)) ∧
    (∀ (t : String) (m : List Char),
        scanFor (fun xs => (uuidAt xs).map Prod.fst) t.data = none →
        scanFor domainAt t.data = none →
        scanFor wrkAt t.data = none →
        scanFor workloadAt t.data = none →
        scanFor fourAlphaAt t.data = some m →
        extractWorkloadId t = some (String.mk m)) ∧
    (∀ t : String,
        scanFor (fun xs => (uuidAt xs).map Prod.fst) t.data = none →
        scanFor domainAt t.data = none →
        scanFor wrkAt t.data = none →
        scanFor workloadAt t.data = none →
        scanFor fourAlphaAt t.data = none →
        extractWorkloadId t = none) ∧
    extractWorkloadId ("7b69314d-c88d-47d9-920c-ae827f6b7844") =
      some ("7b69314d-c88d-47d9-920c-ae827f6b7844") ∧
    extractWorkloadId ("firmly-widely-proud-gpu.comput3.ai") =
      some ("firmly-widely-proud-gpu.comput3.ai") ∧
    extractWorkloadId ("stop wrk_ABC123 now") = some ("wrk_ABC123") ∧
    extractWorkloadId ("no id here") = none := by
  refine ⟨?_, ?_, ?_, ?_, ?_, ?_, by decide, by decide, by decide, by decide⟩
  · intro t m h1
    by_cases ht : t = ""
    · rw [ht,
        (by decide : scanFor (fun xs => (uuidAt xs).map Prod.fst) ("" : String).data = none)]
        at h1
      exact absurd h1 (by simp)
    · simp only [extractWorkloadId, if_neg ht, h1]
  · intro t m h1 h2
    by_cases ht : t = ""
    · rw [ht, (by decide : scanFor domainAt ("" : String).data = none)] at h2
      exact absurd h2 (by simp)
    · simp only [extractWorkloadId, if_neg ht, h1, h2]
  · intro t m h1 h2 h3
    by_cases ht : t = ""
    · rw [ht, (by decide : scanFor wrkAt ("" : String).data = none)] at h3
      exact absurd h3 (by simp)
    · simp only [extractWorkloadId, if_neg ht, h1, h2, h3]
  · intro t m h1 h2 h3 h4
    by_cases ht : t = ""
    · rw [ht, (by decide : scanFor workloadAt ("" : String).data = none)] at h4
      exact absurd h4 (by simp)
    · simp only [extractWorkloadId, if_neg ht, h1, h2, h3, h4]
  · intro t m h1 h2 h3 h4 h5
    by_cases ht : t = ""
    · rw [ht, (by decide : scanFor fourAlphaAt ("" : String).data = none)] at h5
      exact absurd h5 (by simp)
    · simp only [extractWorkloadId, if_neg ht, h1, h2, h3, h4, h5]
  · intro t h1 h2 h3 h4 h5
    by_cases ht : t = ""
    · simp [extractWorkloadId, ht]
    · simp only [extractWorkloadId, if_neg ht, h1, h2, h3, h4, h5]

/-- Witness for C3: the UUID arm applied at a concrete input. -/
theorem extractWorkloadId_priority_chain_witness :
    extractWorkloadId ("please stop 7b69314d-c88d-47d9-920c-ae827f6b7844") =
      some (String.mk ("7b69314d-c88d-47d9-920c-ae827f6b7844".data)) :=
  extractWorkloadId_priority_chain.1
    ("please stop 7b69314d-c88d-47d9-920c-ae827f6b7844")
    ("7b69314d-c88d-47d9-920c-ae827f6b7844".data) (by decide)

/-- Claim C4: extractExpirationTime tries the duration patterns in the
    fixed order expires-in-minutes, for-minutes, minutes-expir, bare
    minutes, hours; the first matching pattern wins, the hours pattern
    returns 60 times the captured integer, and with no match the default
    is returned unchanged; the three examples behave as stated. -/
theorem extractExpirationTime_priority_chain :
    (∀ (t : String) (d n : Nat),
        scanFor expiresInAt t.data = some n →
        extractExpirationTime t d = n) ∧
    (∀ (t : String) (d n : Nat),
        scanFor expiresInAt t.data = none →
        scanFor forMinAt t.data = some n →
        extractExpirationTime t d = n) ∧
    (∀ (t : String) (d n : Nat),
        scanFor expiresInAt t.data = none →
        scanFor forMinAt t.data = none →
        scanFor minExpirAt t.data = some n →
        extractExpirationTime t d = n) ∧
    (∀ (t : String) (d n : Nat),
        scanFor expiresInAt t.data = none →
        scanFor forMinAt t.data = none →
        scanFor minExpirAt t.data = none →
        scanFor digitsWsMin t.data = some n →
        extractExpirationTime t d = n) ∧
    (∀ (t : String) (d n : Nat),
        scanFor expiresInAt t.data = none →
        scanFor forMinAt t.data = none →
        scanFor minExpirAt t.data = none →
        scanFor digitsWsMin t.data = none →
        scanFor hoursAt t.data = some n →
        extractExpirationTime t d = 60 * n) ∧
    (∀ (t : String) (d : Nat),
        scanFor expiresInAt t.data = none →
        scanFor forMinAt t.data = none →
        scanFor minExpirAt t.data = none →
        scanFor digitsWsMin t.data = none →
        scanFor hoursAt t.data = none →
        extractExpirationTime t d = d) ∧
    extractExpirationTime ("expires in 45 minutes") 10 = 45 ∧
    extractExpirationTime ("for 2 hours") 10 = 120 ∧
    extractExpirationTime ("no duration mentioned") 10 = 10 := by
  refine ⟨?_, ?_, ?_, ?_, ?_, ?_, by decide, by decide, by decide⟩
  · intro t d n h1
    by_cases ht : t = ""
    · rw [ht, (by decide : scanFor expiresInAt ("" : String).data = none)] at h1
      exact absurd h1 (by simp)
    · simp only [extractExpirationTime, if_neg ht, h1]
  · intro t d n h1 h2
    by_cases ht : t = ""
    · rw [ht, (by decide : scanFor forMinAt ("" : String).data = none)] at h2
      exact absurd h2 (by simp)
    · simp only [extractExpirationTime, if_neg ht, h1, h2]
  · intro t d n h1 h2 h3
    by_cases ht : t = ""
    · rw [ht, (by decide : scanFor minExpirAt ("" : String).data = none)] at h3
      exact absurd h3 (by simp)
    · simp only [extractExpirationTime, if_neg ht, h1, h2, h3]
  · intro t d n h1 h2 h3 h4
    by_cases ht : t = ""
    · rw [ht, (by decide : scanFor digitsWsMin ("" : String).data = none)] at h4
      exact absurd h4 (by simp)
    · simp only [extractExpirationTime, if_neg ht, h1, h2, h3, h4]
  · intro t d n h1 h2 h3 h4 h5
    by_cases ht : t = ""
    · rw [ht, (by decide : scanFor hoursAt ("" : String).data = none)] at h5
      exact absurd h5 (by simp)
    · simp only [extractExpirationTime, if_neg ht, h1, h2, h3, h4, h5]
      exact Nat.mul_comm n 60
  · intro t d h1 h2 h3 h4 h5
    by_cases ht : t = ""
    · simp [extractExpirationTime, ht]
    · simp only [extractExpirationTime, if_neg ht, h1, h2, h3, h4, h5]

/-- Witness for C4: the hours arm applied at a concrete input. -/
theorem extractExpirationTime_priority_chain_witness :
    extractExpirationTime ("keep it for about 3 hours please") 10 = 60 * 3 :=
  extractExpirationTime_priority_chain.2.2.2.2.1
    ("keep it for about 3 hours please") 10 3
    (by decide) (by decide) (by decide) (by decide) (by decide)

/-- The direct-match loop returns ty exactly when ty is the first declared
    type with a matching pattern. -/
theorem findTypeLoop_eq_some_iff :
    ∀ (l : List (String × List TPat)) (xs : List Char) (ty : String),
    findTypeLoop l xs = some ty ↔
      ∃ pre pats suf, l = pre ++ (ty, pats) :: suf ∧
        pats.any (testTPat xs) = true ∧
        ∀ q ∈ pre, q.2.any (testTPat xs) = false := by
  intro l xs ty
  induction l with
  | nil =>
    constructor
    · intro h
      exact absurd h (by simp [findTypeLoop])
    · rintro ⟨pre, pats, suf, h, _, _⟩
      exact absurd h (by simp)
  | cons hd tl ih =>
    constructor
    · intro h
      by_cases hm : hd.2.any (testTPat xs) = true
      · have he : hd.1 = ty := by
          have := h
          simp only [findTypeLoop, hm, if_pos] at this
          exact Option.some.inj this
        refine ⟨[], hd.2, tl, ?_, hm, by simp⟩
        simp [← he]
      · have hm2 : hd.2.any (testTPat xs) = false := by
          simpa using hm
        have h2 : findTypeLoop tl xs = some ty := by
          simpa [findTypeLoop, hm2] using h
        obtain ⟨pre, pats, suf, he, hma, hpre⟩ := ih.mp h2
        refine ⟨hd :: pre, pats, suf, by simp [he], hma, ?_⟩
        intro q hq
        rcases List.mem_cons.mp hq with hq1 | hq2
        · rw [hq1]; exact hm2
        · exact hpre q hq2
    · rintro ⟨pre, pats, suf, he, hma, hpre⟩
      cases pre with
      | nil =>
        simp only [List.nil_append, List.cons.injEq] at he
        obtain ⟨he1, he2⟩ := he
        simp [findTypeLoop, he1, hma]
      | cons q pre1 =>
        simp only [List.cons_append, List.cons.injEq] at he
        obtain ⟨he1, he2⟩ := he
        have hq : hd.2.any (testTPat xs) = false := by
          rw [he1]; exact hpre q (by simp)
        simp only [findTypeLoop, hq, Bool.false_eq_true, if_false]
        exact ih.mpr ⟨pre1, pats, suf, he2, hma, fun r hr => hpre r (by simp [hr])⟩

/-- Claim C5: extractWorkloadType returns the first declared type one of
    whose patterns matches (declared order, pattern order); with no direct
    match it applies the heuristic keyword rules in the fixed priority
    order coder, media, large, fast; and it returns none when nothing
    matches. -/
theorem extractWorkloadType_priority :
    (∀ (t : String) (ty : String), t ≠ "" →
        (extractWorkloadType t = some ty ↔
          ((∃ pre pats suf, WORKLOAD_TYPE_PATTERNS = pre ++ (ty, pats) :: suf ∧
              pats.any (testTPat t.data) = true ∧
              ∀ q ∈ pre, q.2.any (testTPat t.data) = false) ∨
           (findTypeLoop WORKLOAD_TYPE_PATTERNS t.data = none ∧
            heuristicType t.data = some ty)))) ∧
    (∀ xs : List Char,
        (kwAny coderKws xs = true → heuristicType xs = some ("ollama_webui:coder")) ∧
        (kwAny coderKws xs = false → kwAny mediaKws xs = true →
          heuristicType xs = some ("media:fast")) ∧
        (kwAny coderKws xs = false → kwAny mediaKws xs = false →
          kwAny largeKws xs = true → heuristicType xs = some ("ollama_webui:large")) ∧
        (kwAny coderKws xs = false → kwAny mediaKws xs = false →
          kwAny largeKws xs = false → kwAny fastKws xs = true →
          heuristicType xs = some ("ollama_webui:fast")) ∧
        (kwAny coderKws xs = false → kwAny mediaKws xs = false →
          kwAny largeKws xs = false → kwAny fastKws xs = false →
          heuristicType xs = none)) ∧
    extractWorkloadType ("fast ollama coder") = some ("ollama_webui:coder") ∧
    extractWorkloadType ("ollama webui large") = some ("ollama_webui:large") ∧
    extractWorkloadType ("make it quick") = some ("ollama_webui:fast") ∧
    extractWorkloadType ("a big model please") = some ("ollama_webui:large") ∧
    extractWorkloadType ("video please") = some ("media:fast") ∧
    extractWorkloadType ("hello there") = none := by
  refine ⟨?_, ?_, by decide, by decide, by decide, by decide, by decide, by decide⟩
  · intro t ty ht
    constructor
    · intro h
      simp only [extractWorkloadType, if_neg ht] at h
      cases hf : findTypeLoop WORKLOAD_TYPE_PATTERNS t.data with
      | some ty2 =>
        rw [hf] at h
        have : ty2 = ty := Option.some.inj h
        rw [this] at hf
        exact Or.inl ((findTypeLoop_eq_some_iff _ _ _).mp hf)
      | none =>
        rw [hf] at h
        exact Or.inr ⟨rfl, h⟩
    · intro h
      rcases h with hdecomp | ⟨hn, hh⟩
      · have hf := (findTypeLoop_eq_some_iff WORKLOAD_TYPE_PATTERNS t.data ty).mpr hdecomp
        simp [extractWorkloadType, if_neg ht, hf]
      · simp [extractWorkloadType, if_neg ht, hn, hh]
  · intro xs
    refine ⟨?_, ?_, ?_, ?_, ?_⟩
    · intro h1; simp [heuristicType, h1]
    · intro h1 h2; simp [heuristicType, h1, h2]
    · intro h1 h2 h3; simp [heuristicType, h1, h2, h3]
    · intro h1 h2 h3 h4; simp [heuristicType, h1, h2, h3, h4]
    · intro h1 h2 h3 h4; simp [heuristicType, h1, h2, h3, h4]

/-- Witness for C5: the characterization applied at a concrete input that
    reaches the speed-keyword tier. -/
theorem extractWorkloadType_priority_witness :
    extractWorkloadType ("spin one up real quick") = some ("ollama_webui:fast") :=
  (extractWorkloadType_priority.1 ("spin one up real quick") ("ollama_webui:fast")
      (by decide)).mpr (Or.inr ⟨by decide, by decide⟩)

/-- Claim C7: the launch validator accepts exactly the candidates whose
    type is a non-empty string and whose expires is undefined or a number;
    in particular it rejects a numeric type and accepts any non-empty
    string, with no membership check against the known type set. -/
theorem isLaunchWorkloadContent_characterization :
    (∀ c : LaunchContent,
        isLaunchWorkloadContent c = true ↔
          ((∃ s, c.type = JsVal.strv s ∧ s ≠ "") ∧
           (c.expires = JsVal.undef ∨ ∃ n, c.expires = JsVal.numv n))) ∧
    isLaunchWorkloadContent { type := JsVal.numv 123, expires := JsVal.undef } = false ∧
    isLaunchWorkloadContent
      { type := JsVal.strv ("anything"), expires := JsVal.numv 10 } = true ∧
    (∀ (s : String) (n : Int), s ≠ "" →
        isLaunchWorkloadContent
          { type := JsVal.strv s, expires := JsVal.numv n } = true) := by
  refine ⟨?_, by decide, by decide, ?_⟩
  · intro c
    obtain ⟨ty, ex⟩ := c
    cases ty <;> cases ex <;>
      simp [isLaunchWorkloadContent, jsTruthy, jsTypeof]
  · intro s n hs
    simp [isLaunchWorkloadContent, jsTruthy, jsTypeof, hs]

/-- Witness for C7: the structural acceptance applied at a concrete
    non-enum type string. -/
theorem isLaunchWorkloadContent_characterization_witness :
    isLaunchWorkloadContent
      { type := JsVal.strv ("definitely-not-a-known-type"), expires := JsVal.numv 30 } = true :=
  isLaunchWorkloadContent_characterization.2.2.2 ("definitely-not-a-known-type") 30 (by decide)

/-- A successful fixed-count consume splits its input and is preserved
    under replacing the remainder. -/
theorem consumeCount_spec (p : Char → Bool) :
    ∀ (n : Nat) (xs pre rest : List Char),
      consumeCount p n xs = some (pre, rest) →
      xs = pre ++ rest ∧ ∀ zs, consumeCount p n (pre ++ zs) = some (pre, zs) := by
  intro n
  induction n with
  | zero =>
    intro xs pre rest h
    simp only [consumeCount, Option.some.injEq, Prod.mk.injEq] at h
    obtain ⟨h1, h2⟩ := h
    subst h1
    subst h2
    exact ⟨rfl, fun zs => rfl⟩
  | succ n ih =>
    intro xs pre rest h
    cases xs with
    | nil => exact absurd h (by simp [consumeCount])
    | cons c cs =>
      simp only [consumeCount] at h
      by_cases hp : p c
      · rw [if_pos hp] at h
        cases hcc : consumeCount p n cs with
        | none => rw [hcc] at h; exact absurd h (by simp)
        | some pr =>
          rw [hcc] at h
          simp only [Option.map_some', Option.some.injEq, Prod.mk.injEq] at h
          obtain ⟨h1, h2⟩ := h
          obtain ⟨hxs, hind⟩ := ih cs pr.1 pr.2 (by rw [hcc])
          constructor
          · rw [← h1, ← h2, hxs]
            rfl
          · intro zs
            rw [← h1]
            simp only [List.cons_append, consumeCount, if_pos hp, List.append_eq,
              hind zs, Option.map_some']
      · rw [if_neg hp] at h
        exact absurd h (by simp)

/-- A successful segment-sequence consume splits its input and is
    preserved under replacing the remainder. -/
theorem consumeSegs_spec :
    ∀ (segs : List ((Char → Bool) × Nat)) (xs pre rest : List Char),
      consumeSegs segs xs = some (pre, rest) →
      xs = pre ++ rest ∧ ∀ zs, consumeSegs segs (pre ++ zs) = some (pre, zs) := by
  intro segs
  induction segs with
  | nil =>
    intro xs pre rest h
    simp only [consumeSegs, Option.some.injEq, Prod.mk.injEq] at h
    obtain ⟨h1, h2⟩ := h
    subst h1
    subst h2
    exact ⟨rfl, fun zs => rfl⟩
  | cons s ss ih =>
    intro xs pre rest h
    simp only [consumeSegs] at h
    cases hc : consumeCount s.1 s.2 xs with
    | none => rw [hc] at h; exact absurd h (by simp)
    | some a =>
      rw [hc] at h
      simp only [Option.some_bind] at h
      cases hs2 : consumeSegs ss a.2 with
      | none => rw [hs2] at h; exact absurd h (by simp)
      | some b =>
        rw [hs2] at h
        simp only [Option.map_some', Option.some.injEq, Prod.mk.injEq] at h
        obtain ⟨h1, h2⟩ := h
        obtain ⟨hxs1, hind1⟩ := consumeCount_spec s.1 s.2 xs a.1 a.2 (by rw [hc])
        obtain ⟨hxs2, hind2⟩ := ih a.2 b.1 b.2 (by rw [hs2])
        constructor
        · rw [← h1, ← h2, hxs1, hxs2, List.append_assoc]
        · intro zs
          rw [← h1, List.append_assoc]
          simp only [consumeSegs, hind1 (b.1 ++ zs), Option.some_bind,
            hind2 zs, Option.map_some']

theorem stringDataAppend (a b : String) : (a ++ b).data = a.data ++ b.data := by
  cases a
  cases b
  rfl

theorem stringMkData (s : String) : String.mk s.data = s := by
  cases s
  rfl

theorem uuidAt_full_stable (r zs : List Char) (h : uuidAt r = some (r, [])) :
    uuidAt (r ++ zs) = some (r, zs) :=
  (consumeSegs_spec uuidSegs r r [] h).2 zs

theorem uuidAt_ne_nil {r : List Char} (h : uuidAt r = some (r, [])) : r ≠ [] := by
  intro hr
  rw [hr] at h
  exact absurd h (by decide)

/-- Claim C8 (amended): idempotence under prepending the result does hold
    for extractWorkloadId whenever the result is a full UUID match: the
    UUID pattern then matches at position zero of the concatenation and is
    returned verbatim. -/
theorem extractWorkloadId_uuid_concat_stable :
    ∀ (r t : String), uuidAt r.data = some (r.data, []) →
      extractWorkloadId (r ++ t) = some r := by
  intro r t h
  have hne : r.data ≠ [] := uuidAt_ne_nil h
  have hdata : (r ++ t).data = r.data ++ t.data := stringDataAppend r t
  have hs : uuidAt (r.data ++ t.data) = some (r.data, t.data) :=
    uuidAt_full_stable r.data t.data h
  have hne2 : (r ++ t) ≠ "" := by
    intro he
    have hd2 : (r ++ t).data = [] := by rw [he]
    rw [hdata] at hd2
    exact hne (List.append_eq_nil.mp hd2).1
  have hscan : scanFor (fun xs => (uuidAt xs).map Prod.fst) ((r ++ t).data) =
      some r.data := by
    rw [hdata]
    cases hr : r.data with
    | nil => exact absurd hr hne
    | cons c cs =>
      rw [hr] at hs
      have hs2 : uuidAt (c :: (cs ++ t.data)) = some (c :: cs, t.data) := by
        rw [← List.cons_append]
        exact hs
      simp only [List.cons_append, scanFor, List.append_eq, hs2, Option.map_some']
  simp only [extractWorkloadId, if_neg hne2, hscan, stringMkData]

/-- Witness for the amended C8: a UUID result prepended to the original
    text still extracts to the same UUID. -/
theorem extractWorkloadId_uuid_concat_stable_witness :
    extractWorkloadId ("7b69314d-c88d-47d9-920c-ae827f6b7844" ++ " stop my workload") =
      some ("7b69314d-c88d-47d9-920c-ae827f6b7844") :=
  extractWorkloadId_uuid_concat_stable
    ("7b69314d-c88d-47d9-920c-ae827f6b7844") (" stop my workload") (by decide)

/-- Counterexample to C8 as stated: for each of the three extractors there
    is an input where re-running the extractor on its result concatenated
    with the original text changes the result. -/
theorem extractor_concat_counterexample :
    (extractWorkloadId ("-aaaa-aaaa-aaaa-aaaaaaaaaaaa wrk_aaaaaaaa") =
        some ("wrk_aaaaaaaa") ∧
     extractWorkloadId ("wrk_aaaaaaaa" ++ "-aaaa-aaaa-aaaa-aaaaaaaaaaaa wrk_aaaaaaaa") =
        some ("aaaaaaaa-aaaa-aaaa-aaaa-aaaaaaaaaaaa") ∧
     ("aaaaaaaa-aaaa-aaaa-aaaa-aaaaaaaaaaaa" : String) ≠ ("wrk_aaaaaaaa")) ∧
    (extractExpirationTime ("5 minutes") 10 = 5 ∧
     extractExpirationTime ("5" ++ "5 minutes") 10 = 55 ∧ (55 : Nat) ≠ 5) ∧
    (extractWorkloadType ("coderollama fast") = some ("ollama_webui:fast") ∧
     extractWorkloadType ("ollama_webui:fast" ++ "coderollama fast") =
        some ("ollama_webui:coder") ∧
     ("ollama_webui:coder" : String) ≠ ("ollama_webui:fast")) :=
  ⟨⟨by decide, by decide, by decide⟩, ⟨by decide, by decide, by decide⟩,
   ⟨by decide, by decide, by decide⟩⟩

theorem cbSeq_append (a b : List Event) : cbSeq (a ++ b) = cbSeq a ++ cbSeq b :=
  List.filterMap_append a b _

/-- The extraction phase of the launch handler emits one of three event
    shapes. -/
theorem launchExtract_events (env : LaunchEnv) :
    (launchExtract env).2 = [] ∨
    (launchExtract env).2 = [Event.modelExtract] ∨
    (launchExtract env).2 = [Event.modelExtract, Event.directExtract] := by
  unfold launchExtract
  (repeat' split) <;> simp

/-- The extraction phase of the launch handler never invokes the
    callback. -/
theorem launchExtract_no_cb (env : LaunchEnv) : cbSeq (launchExtract env).2 = [] := by
  rcases launchExtract_events env with h | h | h <;> rw [h] <;> rfl

/-- Claim C1 (amended): the launch handler invokes the callback exactly
    once per turn, with success true exactly on a successful turn; the
    stop handler invokes exactly one callback carrying a success field
    (true exactly on a successful turn), but on turns that reach the stop
    request it first sends one additional processing callback without a
    success field. -/
theorem callback_discipline :
    (∀ env : LaunchEnv, cbSeq (launchHandler env).2 = [some (launchHandler env).1]) ∧
    (∀ env : StopEnv,
        cbSeq (stopHandler env).2 =
          if (stopHandler env).2.any isHttpStopEv then
            [none, some (stopHandler env).1]
          else [some (stopHandler env).1]) := by
  constructor
  · intro env
    unfold launchHandler
    split
    · rfl
    · split
      next evs heq =>
        have h0 : cbSeq evs = [] := by
          have h1 := launchExtract_no_cb env
          rw [heq] at h1
          exact h1
        rw [cbSeq_append, h0]
        rfl
      next p evs heq =>
        have h0 : cbSeq evs = [] := by
          have h1 := launchExtract_no_cb env
          rw [heq] at h1
          exact h1
        unfold launchFinish
        split
        · rw [cbSeq_append, h0]
          rfl
        · split
          · rw [cbSeq_append, h0]
            rfl
          · rw [cbSeq_append, h0]
            rfl
  · intro env
    unfold stopHandler stopFromText stopFinish
    (repeat' split) <;> simp_all [cbSeq, isHttpStopEv]

/-- Counterexample to C1 as stated: a successful stop turn with a
    structured workload id invokes the callback twice, not exactly once
    (first the processing payload with no success field, then the success
    payload). -/
theorem stop_processing_callback_counterexample :
    cbSeq (stopHandler
      { settingKey := some ("key"), envKey := none,
        content := some
          { workloadField := some (JsVal.strv ("7b69314d-c88d-47d9-920c-ae827f6b7844")),
            text := none },
        modelThrows := false, modelOutput := { workload := JsVal.undef },
        apiOk := true, apiData := true }).2 = [none, some true] ∧
    (cbSeq (stopHandler
      { settingKey := some ("key"), envKey := none,
        content := some
          { workloadField := some (JsVal.strv ("7b69314d-c88d-47d9-920c-ae827f6b7844")),
            text := none },
        modelThrows := false, modelOutput := { workload := JsVal.undef },
        apiOk := true, apiData := true }).2).length ≠ 1 :=
  ⟨by decide, by decide⟩

/-- Claim C2: for every validated launch candidate the handler defaults
    the expiration to 10 minutes when it is undefined, and the request
    handed to the HTTP collaborator carries expires equal to
    floor(nowMs / 1000) plus minutes times 60; the text-extraction
    candidate itself still carries raw minutes (the conversion happens
    only at request construction); the worked example launches media:fast
    with now plus 1800 seconds. -/
theorem launch_expires_conversion :
    (∀ (env : LaunchEnv) (p : LaunchContent) (evs : List Event),
        launchExtract env = (some p, evs) →
        isLaunchWorkloadContent p = true →
        actionValidate env.settingKey env.envKey = true →
        Event.httpLaunch
            { type := jsStr p.type,
              expires := Int.ofNat (env.nowMs / 1000) + launchMinutes p * 60 } ∈
          (launchHandler env).2) ∧
    (∀ p : LaunchContent, p.expires = JsVal.undef → launchMinutes p = 10) ∧
    (∀ (s : String) (p : LaunchTextParams),
        validateLaunchWorkloadFromText s = some p →
        p.expires = extractExpirationTime s 10) ∧
    (∀ env : LaunchEnv,
        env.content = some
          { typeField := none, expires := JsVal.undef,
            text := JsVal.strv ("Launch a media:fast workload for 30 minutes") } →
        env.modelThrows = false →
        isLaunchWorkloadContent env.modelOutput = false →
        actionValidate env.settingKey env.envKey = true →
        Event.httpLaunch
            { type := ("media:fast"),
              expires := Int.ofNat (env.nowMs / 1000) + 1800 } ∈
          (launchHandler env).2) := by
  have hmain : ∀ (env : LaunchEnv) (p : LaunchContent) (evs : List Event),
      launchExtract env = (some p, evs) →
      isLaunchWorkloadContent p = true →
      actionValidate env.settingKey env.envKey = true →
      Event.httpLaunch
          { type := jsStr p.type,
            expires := Int.ofNat (env.nowMs / 1000) + launchMinutes p * 60 } ∈
        (launchHandler env).2 := by
    intro env p evs heq hval hkey
    unfold launchHandler
    simp only [hkey, Bool.not_true, Bool.false_eq_true, if_false, heq]
    unfold launchFinish
    simp only [hval, Bool.not_true, Bool.false_eq_true, if_false]
    split <;> simp
  refine ⟨hmain, ?_, ?_, ?_⟩
  · intro p h
    simp [launchMinutes, h]
  · intro s p h
    unfold validateLaunchWorkloadFromText at h
    cases he : extractWorkloadType s with
    | none => rw [he] at h; exact absurd h (by simp)
    | some ty =>
      rw [he] at h
      have h2 := Option.some.inj h
      rw [← h2]
  · intro env hc hmt hmo hkey
    have hex : launchExtract env =
        (some { type := JsVal.strv ("media:fast"), expires := JsVal.numv 30 },
         [Event.modelExtract, Event.directExtract]) := by
      unfold launchExtract
      rw [hc]
      simp only [hmt, Bool.false_eq_true, if_false, hmo]
      rw [(by decide : validateLaunchWorkloadFromText
        ("Launch a media:fast workload for 30 minutes") =
          some { type := ("media:fast"), expires := 30 })]
      rfl
    have hmem := hmain env _ _ hex (by decide) hkey
    simpa [jsStr, launchMinutes, jsNumOr] using hmem

/-- Witness for C2: the worked example at a concrete clock value. -/
theorem launch_expires_conversion_witness :
    Event.httpLaunch
        { type := ("media:fast"),
          expires := Int.ofNat (1730000000000 / 1000) + 1800 } ∈
      (launchHandler
        { settingKey := some ("key"), envKey := none,
          content := some
            { typeField := none, expires := JsVal.undef,
              text := JsVal.strv ("Launch a media:fast workload for 30 minutes") },
          modelThrows := false,
          modelOutput := { type := JsVal.undef, expires := JsVal.undef },
          nowMs := 1730000000000, apiOk := true, apiData := true }).2 :=
  launch_expires_conversion.2.2.2 _ rfl rfl (by decide) (by decide)

/-- With no structured type field, the launch extraction phase emits the
    model event first, followed at most by the deterministic event. -/
theorem launchExtract_shape (env : LaunchEnv) (h : launchUnstructured env = true) :
    (launchExtract env).2 = [Event.modelExtract] ∨
    (launchExtract env).2 = [Event.modelExtract, Event.directExtract] := by
  unfold launchExtract
  (repeat' split) <;> simp_all [launchUnstructured]

/-- Claim C6: with no pre-structured field, the stop handler runs
    deterministic extraction strictly before any model call, while the
    launch handler runs the model first and deterministic extraction only
    afterwards; each extraction path occurs at most once per turn, as the
    only possible extraction subtraces show. -/
theorem extraction_order_asymmetry :
    (∀ env : StopEnv, stopUnstructured env = true →
        (stopHandler env).2.filter isExtractEv = [] ∨
        (stopHandler env).2.filter isExtractEv = [Event.directExtract] ∨
        (stopHandler env).2.filter isExtractEv =
          [Event.directExtract, Event.modelExtract]) ∧
    (∀ env : LaunchEnv, launchUnstructured env = true →
        (launchHandler env).2.filter isExtractEv = [] ∨
        (launchHandler env).2.filter isExtractEv = [Event.modelExtract] ∨
        (launchHandler env).2.filter isExtractEv =
          [Event.modelExtract, Event.directExtract]) := by
  constructor
  · intro env h
    unfold stopHandler stopFromText stopFinish
    (repeat' split) <;> simp_all [stopUnstructured, isExtractEv]
  · intro env h
    unfold launchHandler
    by_cases hk : actionValidate env.settingKey env.envKey
    · simp only [hk, Bool.not_true, Bool.false_eq_true, if_false]
      rcases hsh : launchExtract env with ⟨o, evs⟩
      have hevs : evs = [Event.modelExtract] ∨
          evs = [Event.modelExtract, Event.directExtract] := by
        rcases launchExtract_shape env h with h1 | h1 <;> rw [hsh] at h1 <;>
          [exact Or.inl h1; exact Or.inr h1]
      cases o with
      | none =>
        rcases hevs with h1 | h1 <;> rw [h1] <;> simp [isExtractEv]
      | some p =>
        rcases hevs with h1 | h1 <;> rw [h1] <;> dsimp only <;>
          unfold launchFinish <;> (repeat' split) <;> simp [isExtractEv]
    · simp only [hk, Bool.not_true]
      simp [isExtractEv]

/-- Witness for C6: both parts applied at concrete unstructured turns. -/
theorem extraction_order_asymmetry_witness :
    ((stopHandler
        { settingKey := some ("key"), envKey := none,
          content := some { workloadField := none, text := some ("no id present") },
          modelThrows := false, modelOutput := { workload := JsVal.strv ("w") },
          apiOk := true, apiData := true }).2.filter isExtractEv = [] ∨
     (stopHandler
        { settingKey := some ("key"), envKey := none,
          content := some { workloadField := none, text := some ("no id present") },
          modelThrows := false, modelOutput := { workload := JsVal.strv ("w") },
          apiOk := true, apiData := true }).2.filter isExtractEv =
        [Event.directExtract] ∨
     (stopHandler
        { settingKey := some ("key"), envKey := none,
          content := some { workloadField := none, text := some ("no id present") },
          modelThrows := false, modelOutput := { workload := JsVal.strv ("w") },
          apiOk := true, apiData := true }).2.filter isExtractEv =
        [Event.directExtract, Event.modelExtract]) ∧
    ((launchHandler
        { settingKey := some ("key"), envKey := none,
          content := some
            { typeField := none, expires := JsVal.undef,
              text := JsVal.strv ("Launch a media:fast workload for 30 minutes") },
          modelThrows := false,
          modelOutput := { type := JsVal.undef, expires := JsVal.undef },
          nowMs := 0, apiOk := true, apiData := true }).2.filter isExtractEv = [] ∨
     (launchHandler
        { settingKey := some ("key"), envKey := none,
          content := some
            { typeField := none, expires := JsVal.undef,
              text := JsVal.strv ("Launch a media:fast workload for 30 minutes") },
          modelThrows := false,
          modelOutput := { type := JsVal.undef, expires := JsVal.undef },
          nowMs := 0, apiOk := true, apiData := true }).2.filter isExtractEv =
        [Event.modelExtract] ∨
     (launchHandler
        { settingKey := some ("key"), envKey := none,
          content := some
            { typeField := none, expires := JsVal.undef,
              text := JsVal.strv ("Launch a media:fast workload for 30 minutes") },
          modelThrows := false,
          modelOutput := { type := JsVal.undef, expires := JsVal.undef },
          nowMs := 0, apiOk := true, apiData := true }).2.filter isExtractEv =
        [Event.modelExtract, Event.directExtract]) :=
  ⟨extraction_order_asymmetry.1 _ (by decide),
   extraction_order_asymmetry.2 _ (by decide)⟩

/-- Claim C9: with the API key absent from both the runtime settings and
    the process environment, the validate function returns false, and each
    handler, if invoked anyway, issues no HTTP request and ends in one
    callback with success false, with the client-constructor throw
    absorbed by the turn boundary. -/
theorem missing_api_key_fails_before_network :
    actionValidate none none = false ∧
    (∀ env : LaunchEnv, env.settingKey = none → env.envKey = none →
        launchHandler env = (false, [Event.cb (some false)])) ∧
    (∀ env : StopEnv, env.settingKey = none → env.envKey = none →
        stopHandler env = (false, [Event.cb (some false)])) ∧
    (∀ env : ListEnv, env.settingKey = none → env.envKey = none →
        listHandler env = (false, [Event.cb (some false)])) := by
  refine ⟨by decide, ?_, ?_, ?_⟩
  · intro env h1 h2
    unfold launchHandler
    simp [actionValidate, resolveApiKey, h1, h2]
  · intro env h1 h2
    unfold stopHandler
    simp [actionValidate, resolveApiKey, h1, h2]
  · intro env h1 h2
    unfold listHandler
    simp [actionValidate, resolveApiKey, h1, h2]

/-- Witness for C9: the three handlers at concrete keyless environments. -/
theorem missing_api_key_fails_before_network_witness :
    launchHandler
        { settingKey := none, envKey := none, content := none,
          modelThrows := false,
          modelOutput := { type := JsVal.undef, expires := JsVal.undef },
          nowMs := 0, apiOk := true, apiData := true } =
      (false, [Event.cb (some false)]) ∧
    stopHandler
        { settingKey := none, envKey := none, content := none,
          modelThrows := false, modelOutput := { workload := JsVal.undef },
          apiOk := true, apiData := true } =
      (false, [Event.cb (some false)]) ∧
    listHandler
        { settingKey := none, envKey := none, text := ("list workloads"),
          apiOk := true, apiData := true } =
      (false, [Event.cb (some false)]) ∧
    actionValidate none none = false :=
  ⟨missing_api_key_fails_before_network.2.1 _ rfl rfl,
   missing_api_key_fails_before_network.2.2.1 _ rfl rfl,
   missing_api_key_fails_before_network.2.2.2 _ rfl rfl,
   missing_api_key_fails_before_network.1⟩

/-- Claim C10: the list handler sends running as true exactly when the
    lowercased message text contains the substring running, and leaves it
    undefined otherwise; the client substitutes the default body with
    running true only when the request argument is entirely absent. -/
theorem list_running_filter :
    (∀ env : ListEnv, actionValidate env.settingKey env.envKey = true →
        (listHandler env).2 =
          [Event.httpList
             { running := if hasRunningKw env.text then some true else none },
           Event.cb (some (listHandler env).1)]) ∧
    listWorkloadsClient none = { running := some true } ∧
    (∀ r : ListWorkloadsRequest, listWorkloadsClient (some r) = r) ∧
    hasRunningKw ("Show my RUNNING workloads") = true ∧
    hasRunningKw ("list all workloads") = false := by
  refine ⟨?_, rfl, fun r => rfl, by decide, by decide⟩
  intro env hk
  unfold listHandler
  simp only [hk, Bool.not_true, Bool.false_eq_true, if_false, listWorkloadsClient]
  split <;> rfl

/-- Witness for C10: the handler trace at one concrete filtered turn. -/
theorem list_running_filter_witness :
    (listHandler
        { settingKey := some ("key"), envKey := none,
          text := ("show my running workloads"), apiOk := true, apiData := true }).2 =
      [Event.httpList { running := some true }, Event.cb (some true)] :=
  list_running_filter.1 _ (by decide)
